import Mathlib

/-!
Verification development for the Django-style template engine declared in
`src/template.h` (value model, data-source contracts, scope context, lexer,
parser, evaluator, engine).  The repository ships only the interface header;
the operational behaviour (lexing, parsing, rendering) is therefore modelled
from the specification, as flagged on each definition below.
-/

set_option linter.unusedVariables false

/-- Modelled from the spec: the `TemplateVariant` tagged union of §3
(`None | Bool | Integer | String | Struct-reference | List-reference |
Function`), declared in `template.h` lines 60-165.  Struct and list cases
carry the referenced data directly (the engine only ever reads through the
list/struct contracts); the function case keeps an opaque identifier, since
no claim calls a function variant.  Every case carries the `raw` escape
flag (`setRaw`/`raw` in the header). -/
inductive TemplateVariant where
  | noneV (raw : Bool)
  | boolV (b : Bool) (raw : Bool)
  | intV (i : Int) (raw : Bool)
  | strV (s : String) (raw : Bool)
  | structV (fields : List (String × TemplateVariant)) (raw : Bool)
  | listV (elems : List TemplateVariant) (raw : Bool)
  | funcV (fid : Nat) (raw : Bool)

/-- The `raw()` accessor of `TemplateVariant` (template.h line 160). -/
def tvRaw : TemplateVariant → Bool
  | .noneV r | .boolV _ r | .intV _ r | .strV _ r
  | .structV _ r | .listV _ r | .funcV _ r => r

/-- The `setRaw(b)` mutator of `TemplateVariant` (template.h line 155). -/
def setRaw : TemplateVariant → Bool → TemplateVariant
  | .noneV _, r => .noneV r
  | .boolV b _, r => .boolV b r
  | .intV i _, r => .intV i r
  | .strV s _, r => .strV s r
  | .structV fs _, r => .structV fs r
  | .listV es _, r => .listV es r
  | .funcV f _, r => .funcV f r

/-- `isValid()` is false only for the default-constructed `None` case
(spec §4.1). -/
def tvIsValid : TemplateVariant → Bool
  | .noneV _ => false
  | _ => true

/-- The invalid/None variant produced by the default constructor
(`TemplateVariant()` in template.h line 77). -/
def invalidVariant : TemplateVariant := .noneV false

/-- Modelled from the spec: `toString` (template.h line 128).  Best-effort
string form (§4.1, §4.6): strings map to themselves, booleans and integers
to their printed form (§8 requires `\x7b\x7b i \x7d\x7d` over `[1,2,3]` to
render `123`), and the remaining cases to the zero-valued empty string. -/
def tvToString : TemplateVariant → String
  | .noneV _ => ""
  | .boolV b _ => if b then "true" else "false"
  | .intV i _ => toString i
  | .strV s _ => s
  | .structV _ _ => ""
  | .listV _ _ => ""
  | .funcV _ _ => ""

/-- Modelled from the spec: `toBool` (template.h line 131), best-effort
coercion following the truthiness rules of §4.6: `None` is false, `Bool` is
its value, `Integer` is false only when zero, `String` is false only when
empty, struct/list references are true, functions fall back to false. -/
def tvToBool : TemplateVariant → Bool
  | .noneV _ => false
  | .boolV b _ => b
  | .intV i _ => i != 0
  | .strV s _ => !s.isEmpty
  | .structV _ _ => true
  | .listV _ _ => true
  | .funcV _ _ => false

/-- Modelled from the spec: `toInt` (template.h line 134): the integer value
when the case is `Integer`, and the zero-valued default otherwise (§4.1). -/
def tvToInt : TemplateVariant → Int
  | .intV i _ => i
  | _ => 0

/-- `toList` (template.h lines 136-139): the referenced list, or the null
reference (`none`) when the variant does not have list type. -/
def tvToList : TemplateVariant → Option (List TemplateVariant)
  | .listV es _ => some es
  | _ => none

/-- `toStruct` (template.h lines 141-144): the referenced struct, or the
null reference (`none`) when the variant does not have struct type. -/
def tvToStruct : TemplateVariant → Option (List (String × TemplateVariant))
  | .structV fs _ => some fs
  | _ => none

/-- Replace each ampersand character by the five characters of `&amp;`. -/
def ampEscapeChars : List Char → List Char
  | [] => []
  | c :: rest =>
    if c == '&' then '&' :: 'a' :: 'm' :: 'p' :: ';' :: ampEscapeChars rest
    else c :: ampEscapeChars rest

/-- The example escaper of spec §8: replaces each ampersand by `&amp;`. -/
def ampEscape (s : String) : String := String.mk (ampEscapeChars s.data)

/-- Whitespace test used when trimming delimiter contents. -/
def isSpaceCh (c : Char) : Bool :=
  c == ' ' || c == '\t' || c == '\n' || c == '\r'

/-- Drop leading and trailing whitespace from a character sequence. -/
def trimChars (cs : List Char) : List Char :=
  ((cs.dropWhile isSpaceCh).reverse.dropWhile isSpaceCh).reverse

/-- Drop leading and trailing whitespace from a string. -/
def strTrim (s : String) : String := String.mk (trimChars s.data)

/-- Split a character sequence at every occurrence of the separator. -/
def splitChars (sep : Char) : List Char → List (List Char)
  | [] => [[]]
  | c :: rest =>
    if c == sep then [] :: splitChars sep rest
    else
      match splitChars sep rest with
      | [] => [[c]]
      | h :: t => (c :: h) :: t

/-- Split a string at every occurrence of a separator character. -/
def strSplit (s : String) (sep : Char) : List String :=
  (splitChars sep s.data).map String.mk

/-- Accumulate decimal digits; any non-digit character fails. -/
def digitsAux : List Char → Nat → Option Nat
  | [], acc => some acc
  | c :: rest, acc =>
    if c.isDigit then digitsAux rest (acc * 10 + (c.toNat - 48)) else none

/-- Parse an optionally negated run of decimal digits as an integer;
used when a dotted-path segment or filter argument is taken as a number. -/
def strToInt (s : String) : Option Int :=
  match s.data with
  | [] => none
  | '-' :: ds =>
    match ds with
    | [] => none
    | _ => (digitsAux ds 0).map (fun n => -(n : Int))
  | ds => (digitsAux ds 0).map (fun n => (n : Int))

/-- Join strings with a colon between them (re-assembles a filter argument
that itself contained colons). -/
def joinColon : List (List Char) → List Char
  | [] => []
  | [x] => x
  | x :: xs => x ++ ':' :: joinColon xs

/-- First match in an association list with string keys; used for struct
field lookup, scope dictionaries, block override tables and the engine
cache. -/
def assocFind {α : Type} : List (String × α) → String → Option α
  | [], _ => none
  | (k, v) :: rest, n => if k = n then some v else assocFind rest n

/-- `TemplateStructIntf::get` (template.h lines 244-247): named-field
lookup; absent fields return the invalid/None variant, never an error
(spec §3). -/
def structGet (fields : List (String × TemplateVariant)) (name : String) :
    TemplateVariant :=
  (assocFind fields name).getD invalidVariant

/-- Modelled from the spec: `TemplateListIntf::at` (template.h line 204);
out-of-range indices yield the invalid variant. -/
def listAt (es : List TemplateVariant) (i : Int) : TemplateVariant :=
  if i < 0 then invalidVariant else es.getD i.toNat invalidVariant

/-- Modelled from the spec: the template context of §3 — an ordered stack of
name-to-variant dictionaries (innermost scope first), the optional
host-supplied escaping interface and the output directory used by
`\x7b% create %\x7d` (template.h lines 286-336). -/
structure TemplateContext where
  stack : List (List (String × TemplateVariant))
  escapeIntf : Option (String → String)
  outputDir : String

/-- `TemplateContext::push` (template.h line 301): push a fresh empty scope. -/
def ctxPush (c : TemplateContext) : TemplateContext :=
  { c with stack := [] :: c.stack }

/-- `TemplateContext::pop` (template.h line 304): drop the current scope. -/
def ctxPop (c : TemplateContext) : TemplateContext :=
  { c with stack := c.stack.tail }

/-- Replace-or-append update of one scope dictionary (`set` replaces the
value when the key is already present, template.h lines 306-312). -/
def scopeSet : List (String × TemplateVariant) → String → TemplateVariant →
    List (String × TemplateVariant)
  | [], n, v => [(n, v)]
  | (k, w) :: rest, n, v =>
    if k = n then (k, v) :: rest else (k, w) :: scopeSet rest n v

/-- `TemplateContext::set` writes into the current (topmost) scope (spec §3);
with no scope pushed there is nowhere to write and the call is a no-op. -/
def ctxSet (c : TemplateContext) (n : String) (v : TemplateVariant) :
    TemplateContext :=
  match c.stack with
  | [] => c
  | d :: rest => { c with stack := scopeSet d n v :: rest }

/-- Stack-ordered key lookup: the key is searched starting with the
dictionary at the top of the stack and downwards until found
(template.h lines 288-292). -/
def lookupStack : List (List (String × TemplateVariant)) → String →
    Option TemplateVariant
  | [], _ => none
  | d :: rest, n =>
    match assocFind d n with
    | some v => some v
    | none => lookupStack rest n

/-- `TemplateContext::getRef` (template.h lines 321-325): a pointer to the
value for a key, or the null pointer (`none`) when the key is not found. -/
def getRef (c : TemplateContext) (n : String) : Option TemplateVariant :=
  lookupStack c.stack n

/-- `TemplateContext::get` (template.h lines 314-319): the value for a key,
which is the invalid variant when the key was not found. -/
def ctxGet (c : TemplateContext) (n : String) : TemplateVariant :=
  (lookupStack c.stack n).getD invalidVariant

/-- Modelled from the spec: dotted-path resolution over an already-resolved
variant (§4.3): a struct is asked for the next field, a list is indexed when
the segment parses as an integer, and anything else fails to the invalid
variant. -/
def resolveSegs : TemplateVariant → List String → TemplateVariant
  | v, [] => v
  | v, s :: rest =>
    match v with
    | .structV fields _ => resolveSegs (structGet fields s) rest
    | .listV es _ =>
      match strToInt s with
      | some i => resolveSegs (listAt es i) rest
      | none => invalidVariant
    | _ => invalidVariant

/-- Modelled from the spec: full dotted-path resolution (§4.3): the first
segment goes through the dictionary-stack scan, later segments through
`resolveSegs`; failure at any point yields the invalid variant, never an
error. -/
def resolvePath (c : TemplateContext) (segs : List String) : TemplateVariant :=
  match segs with
  | [] => invalidVariant
  | s :: rest =>
    match lookupStack c.stack s with
    | none => invalidVariant
    | some v => resolveSegs v rest

/-- Modelled from the spec: writing one resolved variant to output (§4.6):
unless the raw flag is set, the string form is passed through the context's
escaping interface; with no escaper set it is emitted unescaped; a raw
variant is always emitted unescaped. -/
def emitVariant (v : TemplateVariant) (c : TemplateContext) : String :=
  let s := tvToString v
  if tvRaw v then s
  else
    match c.escapeIntf with
    | some esc => esc s
    | none => s

/-- Token stream produced by the lexer (spec §4.4): literal text, variable
contents (between `\x7b\x7b` and `\x7d\x7d`) and tag contents (between
`\x7b%` and `%\x7d`); comment contents are discarded at lexing time. -/
inductive Token where
  | lit (s : String)
  | var (s : String)
  | tag (s : String)

/-- Lexer mode: scanning literal text or inside one of the three delimiter
kinds. -/
inductive LexMode where
  | text
  | inVar
  | inTag
  | inComment

/-- Flush the pending literal characters (accumulated in reverse) as a
LITERAL token; an empty run contributes no token. -/
def pushLit (acc : List Char) (toks : List Token) : List Token :=
  match acc with
  | [] => toks
  | _ :: _ => Token.lit (String.mk acc.reverse) :: toks

/-- True when the character can follow `\x7b` to open a delimiter. -/
def isOpenCh (b : Char) : Bool := b == '{' || b == '%' || b == '#'

/-- True when the two characters form a `\x7b\x7b`, `\x7b%` or `\x7b#`
opening delimiter. -/
def isOpenerPair (a b : Char) : Bool := a == '{' && isOpenCh b

/-- Whether the character sequence contains any opening delimiter pair. -/
def hasOpener : List Char → Bool
  | [] => false
  | a :: rest =>
    (match rest with
     | b :: _ => isOpenerPair a b
     | [] => false) || hasOpener rest

/-- Modelled from the spec: the lexer of §4.4.  It scans raw template text
into a flat token stream; delimiters are the literal two-character
sequences; an unterminated delimiter is a lexing failure (`none`), which the
parser reports as a fatal parse error. -/
def lexF : List Char → LexMode → List Char → List Token → Option (List Token)
  | [], .text, acc, toks => some (pushLit acc toks).reverse
  | [], _, _, _ => none
  | [a], .text, acc, toks => some (pushLit (a :: acc) toks).reverse
  | [_], _, _, _ => none
  | a :: b :: rest2, .text, acc, toks =>
    if a == '{' && b == '{' then lexF rest2 .inVar [] (pushLit acc toks)
    else if a == '{' && b == '%' then lexF rest2 .inTag [] (pushLit acc toks)
    else if a == '{' && b == '#' then
      lexF rest2 .inComment [] (pushLit acc toks)
    else lexF (b :: rest2) .text (a :: acc) toks
  | a :: b :: rest2, .inVar, acc, toks =>
    if a == '}' && b == '}' then
      lexF rest2 .text [] (Token.var (String.mk acc.reverse) :: toks)
    else lexF (b :: rest2) .inVar (a :: acc) toks
  | a :: b :: rest2, .inTag, acc, toks =>
    if a == '%' && b == '}' then
      lexF rest2 .text [] (Token.tag (String.mk acc.reverse) :: toks)
    else lexF (b :: rest2) .inTag (a :: acc) toks
  | a :: b :: rest2, .inComment, acc, toks =>
    if a == '#' && b == '}' then lexF rest2 .text [] toks
    else lexF (b :: rest2) .inComment (a :: acc) toks

/-- Lex a whole character sequence starting in literal-text mode. -/
def lex (cs : List Char) : Option (List Token) := lexF cs .text [] []

/-- Modelled from the spec: the parsed node tree of §3 — literal text,
variable expansion (dotted name path plus ordered filter chain), for-loop
with optional empty branch, conditional with optional else branch, named
block, include, and create. -/
inductive TNode where
  | literal (text : String)
  | varNode (path : List String)
      (filters : List (String × Option TemplateVariant))
  | forNode (v : String) (expr : List String) (body : List TNode)
      (emptyBody : Option (List TNode))
  | ifNode (cond : List String) (thenBody : List TNode)
      (elseBody : Option (List TNode))
  | block (name : String) (body : List TNode)
  | includeNode (name : String)
  | createNode (fileExpr : String) (srcExpr : String)

/-- One parsed template: the optional `extends` parent reference (which must
be the first construct, spec §4.5) plus the ordered node sequence. -/
structure TTemplate where
  parent : Option String
  nodes : List TNode

/-- Parse-time failure reasons (spec §7): these are fatal for the template
being parsed — the parser returns the error and no partial node tree. -/
inductive ParseErr where
  | unterminated
  | malformedTag (s : String)
  | unmatchedTag (s : String)
  | unclosedTag (s : String)
  | extendsNotFirst
  | duplicateBlock
  | unknownTag (s : String)
  | badName (s : String)
  | outOfFuel

/-- Split tag contents into whitespace-separated words. -/
def tagWords (s : String) : List String :=
  (strSplit s ' ').filter (fun w => !w.data.isEmpty)

/-- Split a dotted variable expression into its segments. -/
def splitPath (s : String) : List String := strSplit (strTrim s) '.'

/-- Strip a matching pair of single or double quotes from a name literal. -/
def unquote (s : String) : Option String :=
  match s.data with
  | [] => none
  | c :: rest =>
    if (c = Char.ofNat 39 ∨ c = Char.ofNat 34) ∧ rest ≠ [] ∧
        rest.getLast? = some c
    then some (String.mk rest.dropLast) else none

/-- Modelled from the spec: a literal filter argument (§4.5) — a quoted
string literal or an integer literal; anything else yields the invalid
variant. -/
def parseArgLit (a : String) : TemplateVariant :=
  match unquote a with
  | some inner => .strV inner false
  | none =>
    match strToInt a with
    | some i => .intV i false
    | none => invalidVariant

/-- Split one `name` or `name:arg` filter specification. -/
def parseFilterSpec (f : String) : String × Option TemplateVariant :=
  match strSplit f ':' with
  | [] => (strTrim f, none)
  | [n] => (strTrim n, none)
  | n :: restParts =>
    (strTrim n,
     some (parseArgLit (strTrim (String.mk (joinColon (restParts.map String.data))))))

/-- Modelled from the spec: parse the contents of a `\x7b\x7b ... \x7d\x7d`
variable token into a dotted path plus its left-to-right filter chain
(§4.4/§4.5). -/
def parseVarNode (s : String) : Except ParseErr TNode :=
  match strSplit (strTrim s) '|' with
  | [] => .error (.malformedTag s)
  | p :: fs =>
    if (strTrim p).data.isEmpty then .error (.malformedTag s)
    else .ok (.varNode (splitPath p) (fs.map parseFilterSpec))

/-- Modelled from the spec: the recursive-descent parser of §4.5, keyed on
tag keywords.  `stops` holds the end-tags that may close the construct
currently being parsed; a closing tag that is not expected, an unknown or
malformed tag, or end of input while constructs remain open is a fatal
parse error.  The fuel argument only bounds recursion and is instantiated
with the token count, which every recursive call strictly decreases. -/
def parseBody : Nat → List String → List Token →
    Except ParseErr (List TNode × Option String × List Token)
  | 0, _, _ => .error .outOfFuel
  | _ + 1, stops, [] =>
    if stops.isEmpty then .ok ([], none, [])
    else .error (.unclosedTag (String.intercalate "/" stops))
  | fuel + 1, stops, .lit s :: rest => do
    let (ns, stop, rem) ← parseBody fuel stops rest
    .ok (.literal s :: ns, stop, rem)
  | fuel + 1, stops, .var s :: rest => do
    let n ← parseVarNode s
    let (ns, stop, rem) ← parseBody fuel stops rest
    .ok (n :: ns, stop, rem)
  | fuel + 1, stops, .tag s :: rest =>
    match tagWords s with
    | [] => .error (.malformedTag s)
    | kw :: args =>
      if stops.contains kw then .ok ([], some kw, rest)
      else if kw = "for" then
        match args with
        | [v, inKw, expr] =>
          if inKw = "in" then do
            let (body, stop, rem) ← parseBody fuel ["empty", "endfor"] rest
            if stop = some "empty" then do
              let (eb, _, rem2) ← parseBody fuel ["endfor"] rem
              let (ns, stop2, rem3) ← parseBody fuel stops rem2
              .ok (.forNode v (splitPath expr) body (some eb) :: ns,
                   stop2, rem3)
            else do
              let (ns, stop2, rem2) ← parseBody fuel stops rem
              .ok (.forNode v (splitPath expr) body none :: ns, stop2, rem2)
          else .error (.malformedTag s)
        | _ => .error (.malformedTag s)
      else if kw = "if" then
        match args with
        | [expr] => do
          let (tb, stop, rem) ← parseBody fuel ["else", "endif"] rest
          if stop = some "else" then do
            let (eb, _, rem2) ← parseBody fuel ["endif"] rem
            let (ns, stop2, rem3) ← parseBody fuel stops rem2
            .ok (.ifNode (splitPath expr) tb (some eb) :: ns, stop2, rem3)
          else do
            let (ns, stop2, rem2) ← parseBody fuel stops rem
            .ok (.ifNode (splitPath expr) tb none :: ns, stop2, rem2)
        | _ => .error (.malformedTag s)
      else if kw = "block" then
        match args with
        | [name] => do
          let (body, _, rem) ← parseBody fuel ["endblock"] rest
          let (ns, stop2, rem2) ← parseBody fuel stops rem
          .ok (.block name body :: ns, stop2, rem2)
        | _ => .error (.malformedTag s)
      else if kw = "extends" then .error .extendsNotFirst
      else if kw = "include" then
        match args with
        | [q] =>
          match unquote q with
          | some nm => do
            let (ns, stop2, rem2) ← parseBody fuel stops rest
            .ok (.includeNode nm :: ns, stop2, rem2)
          | none => .error (.badName s)
        | _ => .error (.malformedTag s)
      else if kw = "create" then
        match args with
        | [qf, fromKw, qt] =>
          if fromKw = "from" then do
            let (ns, stop2, rem2) ← parseBody fuel stops rest
            .ok (.createNode qf qt :: ns, stop2, rem2)
          else .error (.malformedTag s)
        | _ => .error (.malformedTag s)
      else if kw = "endfor" ∨ kw = "endif" ∨ kw = "endblock" ∨
          kw = "empty" ∨ kw = "else" then .error (.unmatchedTag kw)
      else .error (.unknownTag kw)

/-- Collect every block name declared in a node tree, for the
duplicate-block parse check (spec §4.5).  Fueled traversal; the fuel is
instantiated from the token count, which bounds the tree. -/
def blockNamesF : Nat → List TNode → List String
  | 0, _ => []
  | _ + 1, [] => []
  | fuel + 1, n :: rest =>
    (match n with
     | .block nm body => nm :: blockNamesF fuel body
     | .forNode _ _ b e =>
       blockNamesF fuel b ++
         (match e with | some eb => blockNamesF fuel eb | none => [])
     | .ifNode _ t e =>
       blockNamesF fuel t ++
         (match e with | some eb => blockNamesF fuel eb | none => [])
     | _ => []) ++ blockNamesF fuel rest

/-- Whether a list of names contains a duplicate. -/
def hasDup : List String → Bool
  | [] => false
  | n :: rest => rest.contains n || hasDup rest

/-- Parse a token stream that does not start with `extends`. -/
def parsePlain (fuel : Nat) (toks : List Token) :
    Except ParseErr TTemplate := do
  let (ns, _, _) ← parseBody fuel [] toks
  if hasDup (blockNamesF fuel ns) then .error .duplicateBlock
  else .ok { parent := none, nodes := ns }

/-- Modelled from the spec: parsing one template source (§4.4-§4.5).
Lexing failures (unterminated delimiters) and every parse failure are fatal:
the result is an error and no partial node tree.  An `extends` tag is only
accepted as the very first construct; a duplicate block name within the
template is rejected. -/
def parse (src : String) : Except ParseErr TTemplate :=
  match lex src.data with
  | none => .error .unterminated
  | some toks =>
    let fuel := toks.length + 2
    match toks with
    | .tag s :: rest =>
      (match tagWords s with
       | "extends" :: args =>
         (match args with
          | [q] =>
            (match unquote q with
             | some pname => do
               let (ns, _, _) ← parseBody fuel [] rest
               if hasDup (blockNamesF fuel ns) then .error .duplicateBlock
               else .ok { parent := some pname, nodes := ns }
             | none => .error (.badName q))
          | _ => .error (.malformedTag s))
       | _ => parsePlain fuel toks)
    | _ => parsePlain fuel toks

/-- Whether parsing succeeded (a full node tree was returned). -/
def parseOk : Except ParseErr TTemplate → Bool
  | .ok _ => true
  | .error _ => false

/-- Parse, falling back to the empty template on error; used to build
concrete engines for the rendering examples. -/
def parseT (s : String) : TTemplate :=
  match parse s with
  | .ok t => t
  | .error _ => { parent := none, nodes := [] }

/-- The template engine's registry/cache: parsed node trees keyed by
template name (spec §3 "Engine cache", template.h lines 359-391). -/
abbrev TemplateEngine := List (String × TTemplate)

/-- `loadByName`/`include`/`extends` resolution through the engine cache. -/
def engFind (eng : TemplateEngine) (name : String) : Option TTemplate :=
  assocFind eng name

/-- Top-level blocks of a node sequence, used when collecting a child
template's overriding block bodies (spec §4.6, EXTENDS resolution). -/
def templateBlocks (ns : List TNode) : List (String × List TNode) :=
  ns.filterMap (fun n =>
    match n with
    | .block nm b => some (nm, b)
    | _ => none)

/-- Merge block overrides while walking an inheritance chain outward: the
accumulated overrides come from nearer descendants and therefore win over
blocks of the template currently being passed (spec §4.6). -/
def mergeOv (ov extra : List (String × List TNode)) :
    List (String × List TNode) :=
  ov ++ extra.filter (fun p => (assocFind ov p.1).isNone)

/-- Substitute collected block overrides into an ancestor's node sequence:
each block body is replaced by the nearest descendant's body of the same
name, and blocks without an override keep their original content
(spec §4.6). -/
def substBlocks (ov : List (String × List TNode)) : List TNode → List TNode
  | [] => []
  | .block nm b :: rest =>
    .block nm ((assocFind ov nm).getD b) :: substBlocks ov rest
  | n :: rest => n :: substBlocks ov rest

/-- Modelled from the spec: EXTENDS resolution (§4.6).  Walk the inheritance
chain outward, accumulating block overrides (nearest descendant first), and
substitute them into the outermost ancestor's node sequence.  A missing
parent template is a render-time anomaly: the extends reference is skipped
and the current template's own nodes are rendered (§7).  The fuel bounds the
chain length (cycle guard). -/
def resolveChain : Nat → TemplateEngine → TTemplate →
    List (String × List TNode) → List TNode
  | 0, _, t, ov => substBlocks ov t.nodes
  | fuel + 1, eng, t, ov =>
    match t.parent with
    | none => substBlocks ov t.nodes
    | some p =>
      match engFind eng p with
      | none => substBlocks ov t.nodes
      | some pt => resolveChain fuel eng pt (mergeOv ov (templateBlocks t.nodes))

/-- Modelled from the spec: one filter application (§4.6): `default:X`
substitutes `X` when the value is invalid or has an empty string form;
`length` maps a list or string to its count and an invalid variant to 0
(§8), while any other shape is a render-time anomaly yielding the invalid
variant; `add:N` performs numeric addition coercing both sides via `toInt`;
an unknown filter also yields the invalid variant. -/
def applyFilter (v : TemplateVariant) (name : String)
    (arg : Option TemplateVariant) : TemplateVariant :=
  if name = "default" then
    match arg with
    | some a => if tvIsValid v ∧ tvToString v ≠ "" then v else a
    | none => v
  else if name = "length" then
    match v with
    | .listV es _ => .intV (es.length : Int) false
    | .strV s _ => .intV (s.length : Int) false
    | .noneV _ => .intV 0 false
    | _ => invalidVariant
  else if name = "add" then
    match arg with
    | some a => .intV (tvToInt v + tvToInt a) false
    | none => invalidVariant
  else invalidVariant

/-- Apply an ordered filter chain left to right (spec §4.5/§4.6). -/
def applyFilters (v : TemplateVariant)
    (fs : List (String × Option TemplateVariant)) : TemplateVariant :=
  fs.foldl (fun acc f => applyFilter acc f.1 f.2) v

/-- The evaluator's work items: a node sequence, a single node, a running
for-loop (loop variable, body, remaining elements), or a whole template
(which first resolves its inheritance chain). -/
inductive RJob where
  | nodes (ns : List TNode)
  | node (n : TNode)
  | loop (v : String) (body : List TNode) (elems : List TemplateVariant)
  | tmpl (t : TTemplate)

/-- Modelled from the spec: the tree-walking evaluator of §4.6, written in
explicit state-passing style (the context threads through because `for`
mutates its pushed scope).  Render-time anomalies are never fatal: undefined
variables and failed lookups resolve to the invalid variant, a non-list in a
`for` is treated as an empty list, and a missing include/extends target is
skipped.  The fuel bounds recursion through templates (include/extends
cycles, §7); exhausted fuel renders nothing further. -/
def renderF : Nat → TemplateEngine → RJob → TemplateContext →
    String × TemplateContext
  | 0, _, _, c => ("", c)
  | fuel + 1, eng, job, c =>
    match job with
    | .nodes [] => ("", c)
    | .nodes (n :: rest) =>
      let r1 := renderF fuel eng (.node n) c
      let r2 := renderF fuel eng (.nodes rest) r1.2
      (r1.1 ++ r2.1, r2.2)
    | .node (.literal t) => (t, c)
    | .node (.varNode p fs) =>
      (emitVariant (applyFilters (resolvePath c p) fs) c, c)
    | .node (.forNode v p body emp) =>
      (match (tvToList (resolvePath c p)).getD [] with
       | [] =>
         (match emp with
          | some eb => renderF fuel eng (.nodes eb) c
          | none => ("", c))
       | e :: es =>
         let r := renderF fuel eng (.loop v body (e :: es)) (ctxPush c)
         (r.1, ctxPop r.2))
    | .node (.ifNode cond tb eb) =>
      if tvToBool (resolvePath c cond) then renderF fuel eng (.nodes tb) c
      else
        (match eb with
         | some e => renderF fuel eng (.nodes e) c
         | none => ("", c))
    | .node (.block _ body) => renderF fuel eng (.nodes body) c
    | .node (.includeNode name) =>
      (match engFind eng name with
       | none => ("", c)
       | some t =>
         let r := renderF fuel eng (.tmpl t) (ctxPush c)
         (r.1, ctxPop r.2))
    | .node (.createNode _ _) => ("", c)
    | .loop _ _ [] => ("", c)
    | .loop v body (e :: es) =>
      let r1 := renderF fuel eng (.nodes body) (ctxSet c v e)
      let r2 := renderF fuel eng (.loop v body es) r1.2
      (r1.1 ++ r2.1, r2.2)
    | .tmpl t => renderF fuel eng (.nodes (resolveChain fuel eng t [])) c

/-- Host-level flow `newTemplate` + `render` (template.h lines 349-386):
parse one source text and render the resulting template against a context,
or `none` when parsing failed fatally. -/
def renderParsed (fuel : Nat) (eng : TemplateEngine) (src : String)
    (c : TemplateContext) : Option String :=
  match parse src with
  | .ok t => some (renderF fuel eng (.tmpl t) c).1
  | .error _ => none

/-- A context with one pushed, empty scope and no escaper. -/
def emptyCtx : TemplateContext :=
  { stack := [[]], escapeIntf := none, outputDir := "" }

/-- A context binding `items` to the given variant (spec §8 for-loop test). -/
def itemsCtx (v : TemplateVariant) : TemplateContext :=
  { stack := [[("items", v)]], escapeIntf := none, outputDir := "" }

/-- A context binding `x` to the given variant, with the §8 ampersand
escaper installed. -/
def escCtx (v : TemplateVariant) : TemplateContext :=
  { stack := [[("x", v)]], escapeIntf := some ampEscape, outputDir := "" }

/-- The §8 for-loop template source. -/
def forSrc : String :=
  "\x7b% for i in items %\x7d\x7b\x7b i \x7d\x7d\x7b% empty %\x7dnone\x7b% endfor %\x7d"

/-- The §8 variable-expansion template source. -/
def xSrc : String := "\x7b\x7b x \x7d\x7d"

/-- The §8 base template source. -/
def baseSrc : String := "X\x7b% block body %\x7dBASE\x7b% endblock %\x7dY"

/-- The §8 child template overriding block `body`. -/
def childSrc : String :=
  "\x7b% extends \"base\" %\x7d\x7b% block body %\x7dCHILD\x7b% endblock %\x7d"

/-- A child template defining no block matching the base. -/
def childOtherSrc : String :=
  "\x7b% extends \"base\" %\x7d\x7b% block other %\x7dZ\x7b% endblock %\x7d"

/-- Outermost ancestor of the three-level inheritance chain. -/
def grandSrc : String := "A\x7b% block b %\x7dG\x7b% endblock %\x7dB"

/-- Middle template: extends `grand` and overrides block `b`. -/
def midSrc : String :=
  "\x7b% extends \"grand\" %\x7d\x7b% block b %\x7dM\x7b% endblock %\x7d"

/-- Grandchild overriding block `b` again (nearest descendant wins). -/
def kidSrc : String :=
  "\x7b% extends \"mid\" %\x7d\x7b% block b %\x7dC\x7b% endblock %\x7d"

/-- Grandchild defining no block (the middle override must win). -/
def kid2Src : String := "\x7b% extends \"mid\" %\x7d"

/-- Engine registering the parsed ancestor templates. -/
def engC2 : TemplateEngine :=
  [("base", parseT baseSrc), ("grand", parseT grandSrc),
   ("mid", parseT midSrc)]

/-- Observational equivalence of two contexts: every stack-ordered key
lookup agrees and the escaping interface is the same; two
structurally-equal context instances in the sense of the spec satisfy
this. -/
def obsEquiv (c1 c2 : TemplateContext) : Prop :=
  (∀ n, lookupStack c1.stack n = lookupStack c2.stack n) ∧
  c1.escapeIntf = c2.escapeIntf

/-- How rendering one work item relates the context it returns to the one
it received: a running loop only rewrites the topmost (pushed) scope, and
every other item restores the context exactly. -/
def ctxAfterOk : RJob → TemplateContext → TemplateContext → Prop
  | .loop _ _ _, c, cOut =>
    cOut.stack.tail = c.stack.tail ∧ cOut.escapeIntf = c.escapeIntf ∧
    cOut.outputDir = c.outputDir
  | _, c, cOut => cOut = c

/-- Two contexts with equal components are equal. -/
theorem ctx_eq_of_parts {c d : TemplateContext} (h1 : d.stack = c.stack)
    (h2 : d.escapeIntf = c.escapeIntf) (h3 : d.outputDir = c.outputDir) :
    d = c := by
  cases d; cases c; simp_all

/-- Setting a value touches only the topmost scope: the rest of the stack,
the escaper and the output directory are unchanged. -/
theorem ctxSet_parts (c : TemplateContext) (n : String) (v : TemplateVariant) :
    (ctxSet c n v).stack.tail = c.stack.tail ∧
    (ctxSet c n v).escapeIntf = c.escapeIntf ∧
    (ctxSet c n v).outputDir = c.outputDir := by
  cases c with
  | mk st esc dir =>
    cases st with
    | nil => exact ⟨rfl, rfl, rfl⟩
    | cons d rest => exact ⟨rfl, rfl, rfl⟩

/-- Rendering preserves the context: every work item other than a running
loop returns exactly the context it was given, and a running loop only
rewrites the topmost scope. -/
theorem renderF_ctx (fuel : Nat) : ∀ (eng : TemplateEngine) (job : RJob)
    (c : TemplateContext), ctxAfterOk job c (renderF fuel eng job c).2 := by
  induction fuel with
  | zero =>
    intro eng job c
    cases job with
    | nodes ns => rfl
    | node n => rfl
    | loop v b es => exact ⟨rfl, rfl, rfl⟩
    | tmpl t => rfl
  | succ fuel ih =>
    intro eng job c
    cases job with
    | nodes ns =>
      cases ns with
      | nil => rfl
      | cons n rest =>
        have h1 : (renderF fuel eng (.node n) c).2 = c := ih eng (.node n) c
        have h2 : (renderF fuel eng (.nodes rest)
            (renderF fuel eng (.node n) c).2).2 =
            (renderF fuel eng (.node n) c).2 :=
          ih eng (.nodes rest) (renderF fuel eng (.node n) c).2
        show (renderF fuel eng (.nodes rest)
            (renderF fuel eng (.node n) c).2).2 = c
        exact h2.trans h1
    | node n =>
      cases n with
      | literal t => rfl
      | varNode p fs => rfl
      | createNode f t => rfl
      | block nm body => exact ih eng (.nodes body) c
      | ifNode cond tb eb =>
        show ctxAfterOk (.node (.ifNode cond tb eb)) c _
        simp only [renderF]
        split
        · exact ih eng (.nodes tb) c
        · cases eb with
          | none => rfl
          | some e => exact ih eng (.nodes e) c
      | includeNode name =>
        show ctxAfterOk (.node (.includeNode name)) c _
        simp only [renderF]
        cases hf : engFind eng name with
        | none => rfl
        | some t =>
          have h := ih eng (.tmpl t) (ctxPush c)
          have h2 : (renderF fuel eng (.tmpl t) (ctxPush c)).2 = ctxPush c := h
          show ctxPop (renderF fuel eng (.tmpl t) (ctxPush c)).2 = c
          rw [h2]
          exact ctx_eq_of_parts rfl rfl rfl
      | forNode v p body emp =>
        show ctxAfterOk (.node (.forNode v p body emp)) c _
        simp only [renderF]
        cases hX : (tvToList (resolvePath c p)).getD [] with
        | nil =>
          cases emp with
          | none => rfl
          | some eb => exact ih eng (.nodes eb) c
        | cons e es =>
          have h := ih eng (.loop v body (e :: es)) (ctxPush c)
          obtain ⟨ht, he, hd⟩ := h
          show ctxPop (renderF fuel eng (.loop v body (e :: es))
              (ctxPush c)).2 = c
          exact ctx_eq_of_parts ht he hd
    | loop v body es =>
      cases es with
      | nil => exact ⟨rfl, rfl, rfl⟩
      | cons e es =>
        have h1 : (renderF fuel eng (.nodes body) (ctxSet c v e)).2 =
            ctxSet c v e := ih eng (.nodes body) (ctxSet c v e)
        obtain ⟨st, se, sd⟩ := ctxSet_parts c v e
        obtain ⟨ht, he, hd⟩ := ih eng (.loop v body es) (ctxSet c v e)
        refine ⟨?_, ?_, ?_⟩
        · show (renderF fuel eng (.loop v body es)
              (renderF fuel eng (.nodes body) (ctxSet c v e)).2).2.stack.tail =
            c.stack.tail
          rw [h1]
          exact ht.trans st
        · show (renderF fuel eng (.loop v body es)
              (renderF fuel eng (.nodes body) (ctxSet c v e)).2).2.escapeIntf =
            c.escapeIntf
          rw [h1]
          exact he.trans se
        · show (renderF fuel eng (.loop v body es)
              (renderF fuel eng (.nodes body) (ctxSet c v e)).2).2.outputDir =
            c.outputDir
          rw [h1]
          exact hd.trans sd
    | tmpl t => exact ih eng (.nodes (resolveChain fuel eng t [])) c

/-- Looking a key up in an updated scope sees the new value for that key
and is unchanged for every other key. -/
theorem assocFind_scopeSet (d : List (String × TemplateVariant)) (n m : String)
    (v : TemplateVariant) :
    assocFind (scopeSet d n v) m = if n = m then some v else assocFind d m := by
  induction d with
  | nil => by_cases h : n = m <;> simp [scopeSet, assocFind, h]
  | cons kw rest ih =>
    obtain ⟨k, w⟩ := kw
    by_cases hk : k = n
    · subst hk
      by_cases hm : k = m <;> simp [scopeSet, assocFind, hm]
    · by_cases hm : k = m
      · subst hm
        have hn : ¬ n = k := fun hx => hk hx.symm
        simp [scopeSet, assocFind, hk, hn]
      · simp [scopeSet, assocFind, hk, hm, ih]

/-- Stack lookup through an updated topmost scope. -/
theorem lookupStack_scopeSet (d : List (String × TemplateVariant))
    (rest : List (List (String × TemplateVariant))) (n m : String)
    (v : TemplateVariant) :
    lookupStack (scopeSet d n v :: rest) m =
      if n = m then some v else lookupStack (d :: rest) m := by
  by_cases h : n = m <;> simp [lookupStack, assocFind_scopeSet, h]

/-- Pushing an empty scope on two observationally equal contexts keeps them
observationally equal. -/
theorem obsEquiv_push {c1 c2 : TemplateContext} (h : obsEquiv c1 c2) :
    obsEquiv (ctxPush c1) (ctxPush c2) := by
  refine ⟨fun n => ?_, h.2⟩
  show lookupStack ([] :: c1.stack) n = lookupStack ([] :: c2.stack) n
  simp [lookupStack, assocFind, h.1 n]

/-- Setting a non-empty-stack context can only write the topmost scope. -/
theorem ctxSet_stack_eq {c : TemplateContext} {d : List (String × TemplateVariant)}
    {rest : List (List (String × TemplateVariant))} (hc : c.stack = d :: rest)
    (n : String) (v : TemplateVariant) :
    (ctxSet c n v).stack = scopeSet d n v :: rest := by
  cases c with
  | mk st esc dir =>
    simp only at hc
    subst hc
    rfl

/-- Setting the same key and value in two observationally equal contexts
with pushed scopes keeps them observationally equal. -/
theorem obsEquiv_set {c1 c2 : TemplateContext} (h : obsEquiv c1 c2)
    (h1 : c1.stack ≠ []) (h2 : c2.stack ≠ []) (n : String)
    (v : TemplateVariant) : obsEquiv (ctxSet c1 n v) (ctxSet c2 n v) := by
  obtain ⟨hl, he⟩ := h
  constructor
  · intro m
    cases hc1 : c1.stack with
    | nil => exact absurd hc1 h1
    | cons d1 r1 =>
      cases hc2 : c2.stack with
      | nil => exact absurd hc2 h2
      | cons d2 r2 =>
        rw [ctxSet_stack_eq hc1 n v, ctxSet_stack_eq hc2 n v,
          lookupStack_scopeSet, lookupStack_scopeSet]
        have hm := hl m
        rw [hc1, hc2] at hm
        by_cases hnm : n = m <;> simp [hnm, hm]
  · obtain ⟨_, se1, _⟩ := ctxSet_parts c1 n v
    obtain ⟨_, se2, _⟩ := ctxSet_parts c2 n v
    rw [se1, se2]
    exact he

/-- A set on a context with a pushed scope leaves the stack non-empty. -/
theorem ctxSet_ne_nil {c : TemplateContext} (h : c.stack ≠ [])
    (n : String) (v : TemplateVariant) : (ctxSet c n v).stack ≠ [] := by
  cases hc : c.stack with
  | nil => exact absurd hc h
  | cons d r => rw [ctxSet_stack_eq hc n v]; exact List.cons_ne_nil _ _

/-- Dotted-path resolution only observes the context through stack lookup. -/
theorem resolvePath_obs {c1 c2 : TemplateContext}
    (h : ∀ n, lookupStack c1.stack n = lookupStack c2.stack n)
    (p : List String) : resolvePath c1 p = resolvePath c2 p := by
  cases p with
  | nil => rfl
  | cons s rest => simp [resolvePath, h s]

/-- Variant output only observes the context through the escaper. -/
theorem emitVariant_obs {c1 c2 : TemplateContext}
    (h : c1.escapeIntf = c2.escapeIntf) (v : TemplateVariant) :
    emitVariant v c1 = emitVariant v c2 := by
  simp [emitVariant, h]

/-- Rendering depends on the context only through key lookup and the
escaper: observationally equal contexts produce identical output (running
loops additionally carry their pushed scope). -/
theorem renderF_obs (fuel : Nat) : ∀ (eng : TemplateEngine) (job : RJob)
    (c1 c2 : TemplateContext), obsEquiv c1 c2 →
    (match job with
     | .loop _ _ _ => c1.stack ≠ [] → c2.stack ≠ [] →
         (renderF fuel eng job c1).1 = (renderF fuel eng job c2).1
     | _ => (renderF fuel eng job c1).1 = (renderF fuel eng job c2).1) := by
  induction fuel with
  | zero =>
    intro eng job c1 c2 h
    cases job with
    | loop v b es => intro _ _; rfl
    | nodes ns => rfl
    | node n => rfl
    | tmpl t => rfl
  | succ fuel ih =>
    intro eng job c1 c2 h
    cases job with
    | nodes ns =>
      cases ns with
      | nil => rfl
      | cons n rest =>
        show (renderF fuel eng (.node n) c1).1 ++
            (renderF fuel eng (.nodes rest)
              (renderF fuel eng (.node n) c1).2).1 =
          (renderF fuel eng (.node n) c2).1 ++
            (renderF fuel eng (.nodes rest)
              (renderF fuel eng (.node n) c2).2).1
        have hc1 : (renderF fuel eng (.node n) c1).2 = c1 :=
          renderF_ctx fuel eng (.node n) c1
        have hc2 : (renderF fuel eng (.node n) c2).2 = c2 :=
          renderF_ctx fuel eng (.node n) c2
        rw [hc1, hc2]
        have e1 : (renderF fuel eng (.node n) c1).1 =
            (renderF fuel eng (.node n) c2).1 := ih eng (.node n) c1 c2 h
        have e2 : (renderF fuel eng (.nodes rest) c1).1 =
            (renderF fuel eng (.nodes rest) c2).1 := ih eng (.nodes rest) c1 c2 h
        rw [e1, e2]
    | node n =>
      cases n with
      | literal t => rfl
      | createNode f t => rfl
      | varNode p fs =>
        show emitVariant (applyFilters (resolvePath c1 p) fs) c1 =
          emitVariant (applyFilters (resolvePath c2 p) fs) c2
        rw [resolvePath_obs h.1 p]
        exact emitVariant_obs h.2 _
      | block nm body => exact ih eng (.nodes body) c1 c2 h
      | forNode v p body emp =>
        simp only [renderF]
        rw [resolvePath_obs h.1 p]
        cases hX : (tvToList (resolvePath c2 p)).getD [] with
        | nil =>
          cases emp with
          | none => rfl
          | some eb => exact ih eng (.nodes eb) c1 c2 h
        | cons e es =>
          have hl := ih eng (.loop v body (e :: es)) (ctxPush c1) (ctxPush c2)
            (obsEquiv_push h)
          exact hl (List.cons_ne_nil _ _) (List.cons_ne_nil _ _)
      | ifNode cond tb eb =>
        simp only [renderF]
        rw [resolvePath_obs h.1 cond]
        by_cases hb : tvToBool (resolvePath c2 cond) = true
        · simp only [hb, if_true]
          exact ih eng (.nodes tb) c1 c2 h
        · simp only [hb, if_false]
          cases eb with
          | none => rfl
          | some e => exact ih eng (.nodes e) c1 c2 h
      | includeNode name =>
        simp only [renderF]
        cases hf : engFind eng name with
        | none => rfl
        | some t =>
          exact ih eng (.tmpl t) (ctxPush c1) (ctxPush c2) (obsEquiv_push h)
    | loop v body es =>
      intro hne1 hne2
      cases es with
      | nil => rfl
      | cons e es =>
        show (renderF fuel eng (.nodes body) (ctxSet c1 v e)).1 ++
            (renderF fuel eng (.loop v body es)
              (renderF fuel eng (.nodes body) (ctxSet c1 v e)).2).1 =
          (renderF fuel eng (.nodes body) (ctxSet c2 v e)).1 ++
            (renderF fuel eng (.loop v body es)
              (renderF fuel eng (.nodes body) (ctxSet c2 v e)).2).1
        have hset := obsEquiv_set h hne1 hne2 v e
        have hc1 : (renderF fuel eng (.nodes body) (ctxSet c1 v e)).2 =
            ctxSet c1 v e := renderF_ctx fuel eng (.nodes body) (ctxSet c1 v e)
        have hc2 : (renderF fuel eng (.nodes body) (ctxSet c2 v e)).2 =
            ctxSet c2 v e := renderF_ctx fuel eng (.nodes body) (ctxSet c2 v e)
        rw [hc1, hc2]
        have e1 : (renderF fuel eng (.nodes body) (ctxSet c1 v e)).1 =
            (renderF fuel eng (.nodes body) (ctxSet c2 v e)).1 :=
          ih eng (.nodes body) _ _ hset
        have e2 := ih eng (.loop v body es) _ _ hset
        rw [e1, e2 (ctxSet_ne_nil hne1 v e) (ctxSet_ne_nil hne2 v e)]
    | tmpl t => exact ih eng (.nodes (resolveChain fuel eng t [])) c1 c2 h


/-- Unfolding of the opener scan on two or more characters. -/
theorem hasOpener_cons2 (a b : Char) (rest : List Char) :
    hasOpener (a :: b :: rest) = (isOpenerPair a b || hasOpener (b :: rest)) :=
  rfl

/-- With no opening delimiter pair anywhere, the lexer in text mode
accumulates the whole input as one literal run. -/
theorem lexF_noOpener : ∀ (cs acc : List Char) (toks : List Token),
    hasOpener cs = false →
    lexF cs .text acc toks = some ((pushLit (cs.reverse ++ acc) toks).reverse)
  | [], acc, toks, h => by simp [lexF]
  | [a], acc, toks, h => by simp [lexF]
  | a :: b :: rest2, acc, toks, h => by
    rw [hasOpener_cons2] at h
    obtain ⟨hp, hr⟩ := Bool.or_eq_false_iff.mp h
    simp only [isOpenerPair, isOpenCh] at hp
    have hconds : ((a == '{' && b == '{') = false) ∧
        ((a == '{' && b == '%') = false) ∧ ((a == '{' && b == '#') = false) := by
      rcases Bool.and_eq_false_iff.mp hp with ha | hb
      · exact ⟨by simp [ha], by simp [ha], by simp [ha]⟩
      · rcases Bool.or_eq_false_iff.mp hb with ⟨hb12, hb3⟩
        rcases Bool.or_eq_false_iff.mp hb12 with ⟨hb1, hb2⟩
        exact ⟨by simp [hb1], by simp [hb2], by simp [hb3]⟩
    obtain ⟨h1, h2, h3⟩ := hconds
    have step : lexF (a :: b :: rest2) .text acc toks =
        lexF (b :: rest2) .text (a :: acc) toks := by
      simp [lexF, h1, h2, h3]
    rw [step, lexF_noOpener (b :: rest2) (a :: acc) toks hr]
    simp [List.reverse_cons, List.append_assoc]

/-- Flushing a non-empty literal run produces exactly one LITERAL token. -/
theorem pushLit_singleton (acc : List Char) (hacc : acc ≠ []) :
    (pushLit acc []).reverse = [Token.lit (String.mk acc.reverse)] := by
  cases acc with
  | nil => exact absurd rfl hacc
  | cons d ds => rfl

/-- Lexing a non-empty delimiter-free source yields one LITERAL token
holding the source verbatim. -/
theorem lex_noOpener_cons (a : Char) (rest : List Char)
    (h : hasOpener (a :: rest) = false) :
    lex (a :: rest) = some [Token.lit (String.mk (a :: rest))] := by
  have hl := lexF_noOpener (a :: rest) [] [] h
  rw [lex, hl, List.append_nil,
    pushLit_singleton ((a :: rest).reverse) (by simp), List.reverse_reverse]

/-- Appending the empty string is the identity. -/
theorem mk_append_empty (cs : List Char) : String.mk cs ++ "" = String.mk cs := by
  show String.mk (cs ++ []) = String.mk cs
  rw [List.append_nil]

/-- An unused nonempty block survives substitution untouched. -/
theorem substBlocks_nil (ns : List TNode) : substBlocks [] ns = ns := by
  induction ns with
  | nil => rfl
  | cons n rest ih => cases n <;> simp [substBlocks, ih, assocFind]

/-- Prepending the empty string is the identity. -/
theorem str_empty_append (s : String) : "" ++ s = s := rfl

/-- Claim C1: render-time anomalies are never fatal.  An undefined variable
resolves to the invalid variant, whose string form is empty; a struct `get`
on an absent field returns the invalid variant; a wrong-shaped value for a
filter (here `length` of a boolean) yields the invalid variant; rendering a
variable node always appends its (possibly empty) expansion and continues
with the remaining nodes; a missing include target contributes nothing and
rendering continues; a missing extends target is skipped and the template's
own nodes are rendered. -/
theorem claim_C1 :
    (∀ (c : TemplateContext) (s : String) (rest : List String),
      lookupStack c.stack s = none → resolvePath c (s :: rest) = invalidVariant)
    ∧ (tvIsValid invalidVariant = false ∧ tvToString invalidVariant = "")
    ∧ (∀ (fields : List (String × TemplateVariant)) (name : String),
      assocFind fields name = none → structGet fields name = invalidVariant)
    ∧ (∀ (b r : Bool), applyFilter (.boolV b r) "length" none = invalidVariant)
    ∧ (∀ (fuel : Nat) (eng : TemplateEngine) (p : List String)
        (fs : List (String × Option TemplateVariant)) (rest : List TNode)
        (c : TemplateContext),
      (renderF (fuel + 2) eng (.nodes (.varNode p fs :: rest)) c).1 =
        emitVariant (applyFilters (resolvePath c p) fs) c ++
          (renderF (fuel + 1) eng (.nodes rest) c).1)
    ∧ (∀ (fuel : Nat) (eng : TemplateEngine) (name : String)
        (rest : List TNode) (c : TemplateContext), engFind eng name = none →
      (renderF (fuel + 1) eng (.nodes (.includeNode name :: rest)) c).1 =
        (renderF fuel eng (.nodes rest) c).1)
    ∧ (∀ (fuel : Nat) (eng : TemplateEngine) (name : String)
        (ns : List TNode) (c : TemplateContext), engFind eng name = none →
      renderF (fuel + 1) eng (.tmpl { parent := some name, nodes := ns }) c =
        renderF fuel eng (.nodes (substBlocks [] ns)) c) := by
  refine ⟨?_, ⟨rfl, rfl⟩, ?_, fun b r => rfl, fun fuel eng p fs rest c => rfl,
    ?_, ?_⟩
  · intro c s rest h
    simp [resolvePath, h]
  · intro fields name h
    simp [structGet, h]
  · intro fuel eng name rest c h
    cases fuel with
    | zero => rfl
    | succ k => simp [renderF, h, str_empty_append]
  · intro fuel eng name ns c h
    cases fuel with
    | zero => rfl
    | succ k => simp [renderF, resolveChain, h]

/-- Witness for C1 at concrete inputs: an empty context, an empty struct,
an empty engine. -/
theorem claim_C1_witness :
    resolvePath { stack := [], escapeIntf := none, outputDir := "" }
        ["missing"] = invalidVariant
    ∧ structGet [] "f" = invalidVariant
    ∧ (renderF 1 [] (.nodes [.includeNode "absent"]) emptyCtx).1 =
        (renderF 0 [] (.nodes []) emptyCtx).1
    ∧ renderF 1 [] (.tmpl { parent := some "absent", nodes := [] }) emptyCtx =
        renderF 0 [] (.nodes (substBlocks [] [])) emptyCtx :=
  ⟨claim_C1.1 _ "missing" [] rfl,
   claim_C1.2.2.1 [] "f" rfl,
   claim_C1.2.2.2.2.2.1 0 [] "absent" [] emptyCtx rfl,
   claim_C1.2.2.2.2.2.2 0 [] "absent" [] emptyCtx rfl⟩

/-- Claim C2: template inheritance.  The spec's two examples render
`XCHILDY` and `XBASEY`; a three-level chain renders the nearest
descendant's override (`ACB`) and, with no grandchild override, the middle
override (`AMB`); substitution replaces each block body by the override of
that name when present and keeps the original otherwise; a template with no
parent renders exactly its own substituted node sequence. -/
theorem claim_C2 :
    renderParsed 64 engC2 childSrc emptyCtx = some "XCHILDY"
    ∧ renderParsed 64 engC2 childOtherSrc emptyCtx = some "XBASEY"
    ∧ renderParsed 64 engC2 kidSrc emptyCtx = some "ACB"
    ∧ renderParsed 64 engC2 kid2Src emptyCtx = some "AMB"
    ∧ (∀ (ov : List (String × List TNode)) (nm : String)
        (b rest : List TNode), substBlocks ov (.block nm b :: rest) =
          .block nm ((assocFind ov nm).getD b) :: substBlocks ov rest)
    ∧ (∀ (fuel : Nat) (eng : TemplateEngine) (ns : List TNode)
        (ov : List (String × List TNode)),
      resolveChain fuel eng { parent := none, nodes := ns } ov =
        substBlocks ov ns) := by
  refine ⟨by decide, by decide, by decide, by decide,
    fun ov nm b rest => rfl, fun fuel eng ns ov => ?_⟩
  cases fuel <;> rfl

/-- Claim C3: for-loop semantics.  The spec's examples render `none` over
the empty list and `123` over `[1,2,3]`; a loop expression that is not a
list is treated as an empty list, so the empty-branch is rendered; a
non-empty list renders the body once per element in forward order (head
first, loop variable bound by `set` in the pushed scope), popping the scope
at the end. -/
theorem claim_C3 :
    renderParsed 64 [] forSrc (itemsCtx (.listV [] false)) = some "none"
    ∧ renderParsed 64 [] forSrc
        (itemsCtx (.listV [.intV 1 false, .intV 2 false, .intV 3 false]
          false)) = some "123"
    ∧ (∀ (fuel : Nat) (eng : TemplateEngine) (v : String) (p : List String)
        (body eb : List TNode) (c : TemplateContext),
      tvToList (resolvePath c p) = none →
      renderF (fuel + 1) eng (.node (.forNode v p body (some eb))) c =
        renderF fuel eng (.nodes eb) c)
    ∧ (∀ (fuel : Nat) (eng : TemplateEngine) (v : String) (body : List TNode)
        (e : TemplateVariant) (es : List TemplateVariant)
        (c : TemplateContext),
      renderF (fuel + 1) eng (.loop v body (e :: es)) c =
        ((renderF fuel eng (.nodes body) (ctxSet c v e)).1 ++
          (renderF fuel eng (.loop v body es)
            (renderF fuel eng (.nodes body) (ctxSet c v e)).2).1,
         (renderF fuel eng (.loop v body es)
            (renderF fuel eng (.nodes body) (ctxSet c v e)).2).2))
    ∧ (∀ (fuel : Nat) (eng : TemplateEngine) (v : String) (p : List String)
        (body : List TNode) (eb : Option (List TNode)) (e : TemplateVariant)
        (es : List TemplateVariant) (c : TemplateContext),
      tvToList (resolvePath c p) = some (e :: es) →
      renderF (fuel + 1) eng (.node (.forNode v p body eb)) c =
        ((renderF fuel eng (.loop v body (e :: es)) (ctxPush c)).1,
         ctxPop (renderF fuel eng (.loop v body (e :: es))
           (ctxPush c)).2)) := by
  refine ⟨by decide, by decide, ?_, fun fuel eng v body e es c => rfl, ?_⟩
  · intro fuel eng v p body eb c h
    simp [renderF, h]
  · intro fuel eng v p body eb e es c h
    simp [renderF, h]

/-- Witness for C3: a non-list loop value renders the empty branch; a
one-element list enters the loop with a pushed scope. -/
theorem claim_C3_witness :
    renderF 1 [] (.node (.forNode "i" ["items"] [] (some [.literal "none"])))
        (itemsCtx (.intV 7 false)) =
      renderF 0 [] (.nodes [.literal "none"]) (itemsCtx (.intV 7 false))
    ∧ renderF 1 [] (.node (.forNode "i" ["items"] [] none))
        (itemsCtx (.listV [.intV 1 false] false)) =
      ((renderF 0 [] (.loop "i" [] [.intV 1 false])
          (ctxPush (itemsCtx (.listV [.intV 1 false] false)))).1,
       ctxPop (renderF 0 [] (.loop "i" [] [.intV 1 false])
          (ctxPush (itemsCtx (.listV [.intV 1 false] false)))).2) :=
  ⟨claim_C3.2.2.1 0 [] "i" ["items"] [] [.literal "none"] _ rfl,
   claim_C3.2.2.2.2 0 [] "i" ["items"] [] none (.intV 1 false) [] _ rfl⟩

/-- Claim C4: escaping of variable expansion.  The spec's example renders
`a&amp;b` through the ampersand escaper and `a&b` once the variant is raw;
in general a raw variant is always emitted unescaped, a non-raw variant
with no escaper installed is emitted unescaped, and a non-raw variant is
passed through the installed escaper. -/
theorem claim_C4 :
    renderParsed 16 [] xSrc (escCtx (.strV "a&b" false)) = some "a&amp;b"
    ∧ renderParsed 16 [] xSrc (escCtx (setRaw (.strV "a&b" false) true)) =
        some "a&b"
    ∧ (∀ (v : TemplateVariant) (c : TemplateContext),
        emitVariant (setRaw v true) c = tvToString v)
    ∧ (∀ (v : TemplateVariant)
        (st : List (List (String × TemplateVariant))) (dir : String),
        emitVariant v { stack := st, escapeIntf := none, outputDir := dir } =
          tvToString v)
    ∧ (∀ (v : TemplateVariant)
        (st : List (List (String × TemplateVariant)))
        (e : String → String) (dir : String),
        emitVariant (setRaw v false)
          { stack := st, escapeIntf := some e, outputDir := dir } =
          e (tvToString v)) := by
  refine ⟨by decide, by decide, ?_, ?_, ?_⟩
  · intro v c
    cases v <;> rfl
  · intro v st dir
    cases h : tvRaw v <;> simp [emitVariant, h]
  · intro v st e dir
    cases v <;> rfl

/-- Claim C5: scope isolation.  Rendering any node sequence (and any single
node, in particular a for-loop) returns exactly the context it was given;
`pop` after `push` restores the previous dictionary stack exactly, also
after a `set` into the pushed scope; hence any name resolves after a
for-loop exactly as it did before it. -/
theorem claim_C5 :
    (∀ (fuel : Nat) (eng : TemplateEngine) (ns : List TNode)
      (c : TemplateContext), (renderF fuel eng (.nodes ns) c).2 = c)
    ∧ (∀ (fuel : Nat) (eng : TemplateEngine) (n : TNode)
      (c : TemplateContext), (renderF fuel eng (.node n) c).2 = c)
    ∧ (∀ c : TemplateContext, (ctxPop (ctxPush c)).stack = c.stack)
    ∧ (∀ (c : TemplateContext) (v : String) (x : TemplateVariant),
      (ctxPop (ctxSet (ctxPush c) v x)).stack = c.stack)
    ∧ (∀ (fuel : Nat) (eng : TemplateEngine) (v : String) (p : List String)
        (body : List TNode) (emp : Option (List TNode))
        (c : TemplateContext) (name : String),
      lookupStack ((renderF fuel eng (.node (.forNode v p body emp)) c).2).stack
          name = lookupStack c.stack name) := by
  refine ⟨fun fuel eng ns c => renderF_ctx fuel eng (.nodes ns) c,
    fun fuel eng n c => renderF_ctx fuel eng (.node n) c,
    fun c => rfl, fun c v x => rfl, ?_⟩
  intro fuel eng v p body emp c name
  rw [show (renderF fuel eng (.node (.forNode v p body emp)) c).2 = c from
    renderF_ctx fuel eng (.node (.forNode v p body emp)) c]

/-- Counterexample for C6 as stated: `toString` of an Integer variant is its
decimal form, not the empty-string default (the spec's own §8 example
requires rendering `[1,2,3]` as `123`), and `toBool` of a non-zero Integer
is true, not the false default (§4.6 truthiness). -/
theorem claim_C6_cx :
    tvToString (.intV 1 false) = "1" ∧ ¬ tvToString (.intV 1 false) = ""
    ∧ tvToBool (.intV 5 false) = true
    ∧ ¬ tvToBool (.intV 5 false) = false := by
  refine ⟨by decide, by decide, by decide, by decide⟩

/-- Claim C6 amended: `toInt`, `toList` and `toStruct` return the value when
the active case matches and the zero-valued default (0, null, null)
otherwise; `toString` and `toBool` are best-effort — `toString` maps strings
to themselves, booleans to `true`/`false`, integers to their decimal form
and everything else to the empty string, while `toBool` follows the
truthiness rules (non-zero integer and non-empty string are true,
struct/list references are true); no coercion ever signals an error. -/
theorem claim_C6_amended :
    (∀ r, tvToString (.noneV r) = "")
    ∧ (∀ b r, tvToString (.boolV b r) = if b then "true" else "false")
    ∧ (∀ i r, tvToString (.intV i r) = toString i)
    ∧ (∀ s r, tvToString (.strV s r) = s)
    ∧ (∀ fs r, tvToString (.structV fs r) = "")
    ∧ (∀ es r, tvToString (.listV es r) = "")
    ∧ (∀ f r, tvToString (.funcV f r) = "")
    ∧ (∀ b r, tvToBool (.boolV b r) = b)
    ∧ (∀ i r, tvToBool (.intV i r) = (i != 0))
    ∧ (∀ s r, tvToBool (.strV s r) = !s.isEmpty)
    ∧ (∀ r, tvToBool (.noneV r) = false)
    ∧ (∀ fs r, tvToBool (.structV fs r) = true)
    ∧ (∀ es r, tvToBool (.listV es r) = true)
    ∧ (∀ f r, tvToBool (.funcV f r) = false)
    ∧ (∀ i r, tvToInt (.intV i r) = i)
    ∧ (∀ r, tvToInt (.noneV r) = 0)
    ∧ (∀ b r, tvToInt (.boolV b r) = 0)
    ∧ (∀ s r, tvToInt (.strV s r) = 0)
    ∧ (∀ fs r, tvToInt (.structV fs r) = 0)
    ∧ (∀ es r, tvToInt (.listV es r) = 0)
    ∧ (∀ f r, tvToInt (.funcV f r) = 0)
    ∧ (∀ es r, tvToList (.listV es r) = some es)
    ∧ (∀ r, tvToList (.noneV r) = none)
    ∧ (∀ b r, tvToList (.boolV b r) = none)
    ∧ (∀ i r, tvToList (.intV i r) = none)
    ∧ (∀ s r, tvToList (.strV s r) = none)
    ∧ (∀ fs r, tvToList (.structV fs r) = none)
    ∧ (∀ f r, tvToList (.funcV f r) = none)
    ∧ (∀ fs r, tvToStruct (.structV fs r) = some fs)
    ∧ (∀ r, tvToStruct (.noneV r) = none)
    ∧ (∀ b r, tvToStruct (.boolV b r) = none)
    ∧ (∀ i r, tvToStruct (.intV i r) = none)
    ∧ (∀ s r, tvToStruct (.strV s r) = none)
    ∧ (∀ es r, tvToStruct (.listV es r) = none)
    ∧ (∀ f r, tvToStruct (.funcV f r) = none) :=
  ⟨fun r => rfl, fun b r => rfl, fun i r => rfl, fun s r => rfl,
   fun fs r => rfl, fun es r => rfl, fun f r => rfl, fun b r => rfl,
   fun i r => rfl, fun s r => rfl, fun r => rfl, fun fs r => rfl,
   fun es r => rfl, fun f r => rfl, fun i r => rfl, fun r => rfl,
   fun b r => rfl, fun s r => rfl, fun fs r => rfl, fun es r => rfl,
   fun f r => rfl, fun es r => rfl, fun r => rfl, fun b r => rfl,
   fun i r => rfl, fun s r => rfl, fun fs r => rfl, fun f r => rfl,
   fun fs r => rfl, fun r => rfl, fun b r => rfl, fun i r => rfl,
   fun s r => rfl, fun es r => rfl, fun f r => rfl⟩

/-- Claim C7: a template source containing no opening delimiter renders to
itself, byte for byte, against any engine and any context. -/
theorem claim_C7 (src : String) (eng : TemplateEngine) (c : TemplateContext)
    (m : Nat) (h : hasOpener src.data = false) :
    renderParsed (m + 3) eng src c = some src := by
  obtain ⟨data⟩ := src
  cases data with
  | nil => rfl
  | cons a rest =>
    have hlx : lex (a :: rest) = some [Token.lit (String.mk (a :: rest))] :=
      lex_noOpener_cons a rest h
    have hp : parse (String.mk (a :: rest)) =
        .ok { parent := none,
              nodes := [TNode.literal (String.mk (a :: rest))] } := by
      unfold parse
      rw [show (String.mk (a :: rest)).data = a :: rest from rfl, hlx]
      rfl
    unfold renderParsed
    rw [hp]
    show some (String.mk (a :: rest) ++ "") = some (String.mk (a :: rest))
    rw [mk_append_empty]

/-- Witness for C7 at a concrete delimiter-free source. -/
theorem claim_C7_witness :
    hasOpener ("plain text, no delimiters").data = false
    ∧ renderParsed 3 [] "plain text, no delimiters" emptyCtx =
        some "plain text, no delimiters" :=
  ⟨by decide, claim_C7 "plain text, no delimiters" [] emptyCtx 0 (by decide)⟩

/-- Claim C8: parse-time failures are fatal — an empty/malformed tag, a
wrong-arity `for`, an unmatched `endfor`, content before `extends`, a
duplicate block name and an unterminated delimiter each make `parse` return
an error, so no (partial) node tree is produced. -/
theorem claim_C8 :
    parseOk (parse "\x7b% %\x7d") = false
    ∧ parseOk (parse "\x7b% for x %\x7d") = false
    ∧ parseOk (parse "\x7b% endfor %\x7d") = false
    ∧ parseOk (parse "A\x7b% extends \"b\" %\x7d") = false
    ∧ parseOk (parse
        "\x7b% block a %\x7dX\x7b% endblock %\x7d\x7b% block a %\x7dY\x7b% endblock %\x7d")
      = false
    ∧ parseOk (parse "\x7b\x7b x") = false :=
  ⟨by decide, by decide, by decide, by decide, by decide, by decide⟩

/-- Claim C9: rendering is deterministic in the context data — two
observationally equal contexts (same stack-ordered lookup results on every
key and the same escaper) produce identical output for every template. -/
theorem claim_C9 (fuel : Nat) (eng : TemplateEngine) (t : TTemplate)
    (c1 c2 : TemplateContext) (h : obsEquiv c1 c2) :
    (renderF fuel eng (.tmpl t) c1).1 = (renderF fuel eng (.tmpl t) c2).1 :=
  renderF_obs fuel eng (.tmpl t) c1 c2 h

/-- Witness for C9: two structurally distinct contexts (one scope versus an
extra empty scope and a different output directory) with equal lookups
render the same output. -/
theorem claim_C9_witness :
    obsEquiv
      { stack := [[("x", .strV "v" false)]], escapeIntf := none,
        outputDir := "" }
      { stack := [[], [("x", .strV "v" false)]], escapeIntf := none,
        outputDir := "d2" }
    ∧ (renderF 8 [] (.tmpl (parseT xSrc))
        { stack := [[("x", .strV "v" false)]], escapeIntf := none,
          outputDir := "" }).1 =
      (renderF 8 [] (.tmpl (parseT xSrc))
        { stack := [[], [("x", .strV "v" false)]], escapeIntf := none,
          outputDir := "d2" }).1 :=
  ⟨⟨fun n => rfl, rfl⟩,
   claim_C9 8 [] (parseT xSrc) _ _ ⟨fun n => rfl, rfl⟩⟩

/-- Claim C10: `getRef` returns the null pointer exactly when the
stack-ordered lookup of the key fails, and otherwise points to the very
value `get` returns for that key (which is the invalid variant exactly in
the null case). -/
theorem claim_C10 (c : TemplateContext) (n : String) :
    (getRef c n = none ↔ lookupStack c.stack n = none)
    ∧ (∀ v, getRef c n = some v → ctxGet c n = v)
    ∧ (getRef c n = none → ctxGet c n = invalidVariant) := by
  refine ⟨Iff.rfl, fun v h => ?_, fun h => ?_⟩
  · unfold getRef at h
    unfold ctxGet
    rw [h]
    rfl
  · unfold getRef at h
    unfold ctxGet
    rw [h]
    rfl

/-- Witness for C10: a bound key dereferences to its value, an unbound key
gives the invalid variant. -/
theorem claim_C10_witness :
    ctxGet { stack := [[("x", .intV 7 false)]],
             escapeIntf := none, outputDir := "" } "x" = .intV 7 false
    ∧ ctxGet emptyCtx "y" = invalidVariant :=
  ⟨(claim_C10 { stack := [[("x", .intV 7 false)]],
                escapeIntf := none, outputDir := "" } "x").2.1
      (.intV 7 false) rfl,
   (claim_C10 emptyCtx "y").2.2 rfl⟩
